import Mathlib

/-!
Verification of the knight-agent retrieval-and-reasoning core against its
specification.  The repository ships the configuration (settings defaults),
operational documentation and the frontend TypeScript client; the orchestration
engine itself (state machine, hybrid retriever, provider gateway, quality
evaluator, context assembler) is described by the specification and is modelled
here from the spec's words.  The frontend client code (api.ts and the documents
service) is embedded directly from the source.
-/

namespace Knight

/-! ## Data model (spec section 3) -/

/-- Chunk record: id, document id, text and token count (spec section 3). -/
structure Chunk where
  id : String
  document_id : String
  text : String
  token_count : Nat
deriving DecidableEq, Repr

/-- ScoredChunk: a chunk together with its semantic, keyword and combined
scores.  Scores are modelled as rationals. -/
structure ScoredChunk where
  chunk : Chunk
  semantic_score : ℚ
  keyword_score : ℚ
  combined_score : ℚ
deriving DecidableEq, Repr

/-- Default semantic weight, from src/backend/knight_backend/settings.py.backup
line 178: SEMANTIC_WEIGHT defaults to 0.7. -/
def SEMANTIC_WEIGHT : ℚ := 7/10

/-- Default keyword (BM25) weight, from
src/backend/knight_backend/settings.py.backup line 177: BM25_WEIGHT defaults
to 0.3. -/
def BM25_WEIGHT : ℚ := 3/10

/-! ## Retriever construction (spec sections 3 and 8)

Modelled from the spec: the retriever implementation is not under src/ (only
the weight configuration defaults are); the spec requires the weights to sum
to 1.0, validated at startup, with an invalid configuration being a fatal
configuration error raised at construction, before any query is served. -/

/-- Configuration error raised at startup (spec section 7). -/
inductive ConfigError where
  | invalidWeights (semantic_weight keyword_weight : ℚ)
deriving DecidableEq, Repr

/-- Retriever: carries the validated blending weights. -/
structure Retriever where
  semantic_weight : ℚ
  keyword_weight : ℚ
deriving DecidableEq, Repr

/-- Modelled from the spec: constructing a Retriever validates that
semantic_weight + keyword_weight equals 1.0; an invalid pair is a fatal
configuration error at construction, not at query time. -/
def mkRetriever (sw kw : ℚ) : Except ConfigError Retriever :=
  if sw + kw = 1 then .ok ⟨sw, kw⟩ else .error (.invalidWeights sw kw)

/-! ## Frontend API client, src/frontend/src/services/api.ts -/

namespace Frontend

/-- Embedding of getApiBaseUrl (src/frontend/src/services/api.ts lines 4-27).
The source forces the constant URL with an early return at line 11-13; the
branches on window.location.hostname (lines 16-18), on
process.env.REACT_APP_API_URL (lines 21-23) and the relative-proxy default
(line 26) follow the early return in the source and are modelled as
later alternatives of a first-match chain. -/
def getApiBaseUrl (hostname : String) (reactAppApiUrl : Option String) : String :=
  let forced : Option String := some "http://localhost:8000/api"
  let localhostBranch : Option String :=
    if hostname = "localhost" ∨ hostname = "127.0.0.1" then some "http://localhost:8000/api"
    else none
  let envBranch : Option String := reactAppApiUrl.map (fun base => base ++ "/api")
  ((forced <|> localhostBranch) <|> envBranch).getD "/api"

/-- Browser-visible state touched by the response interceptor: the
localStorage map and the current location href. -/
structure BrowserState where
  localStorage : List (String × String)
  locationHref : String
deriving DecidableEq, Repr

/-- Reads an entry of localStorage (first binding wins, as in the browser). -/
def BrowserState.getItem (st : BrowserState) (key : String) : Option String :=
  (st.localStorage.find? (fun p => p.1 = key)).map (fun p => p.2)

/-- localStorage.removeItem: drops every binding of the key. -/
def BrowserState.removeItem (st : BrowserState) (key : String) : BrowserState :=
  { st with localStorage := st.localStorage.filter (fun p => ¬ p.1 = key) }

/-- An axios error as seen by the response interceptor: error.response is
absent for network failures, otherwise carries the HTTP status. -/
structure HttpError where
  responseStatus : Option Nat
deriving DecidableEq, Repr

/-- Outcome of an interceptor handler: the error is re-rejected to the caller
or swallowed with a substitute value. -/
inductive InterceptOutcome where
  | reject (err : HttpError)
  | resolve
deriving DecidableEq, Repr

/-- Embedding of the response-error interceptor
(src/frontend/src/services/api.ts lines 53-63): on status 401 it removes
the sessionToken entry from localStorage and redirects to /login; in every
case it returns Promise.reject(error). -/
def onResponseError (st : BrowserState) (err : HttpError) : BrowserState × InterceptOutcome :=
  let st2 :=
    if err.responseStatus = some 401 then
      { st.removeItem "sessionToken" with locationHref := "/login" }
    else st
  (st2, .reject err)

/-- JavaScript values as handled by documentsApi.list: the response body can
be any JSON shape, and absent object fields behave as undefined. -/
inductive JsVal where
  | jsUndefined
  | null
  | bool (b : Bool)
  | num (n : ℚ)
  | str (s : String)
  | arr (elems : List JsVal)
  | obj (fields : List (String × JsVal))

/-- JavaScript truthiness of a value. -/
def JsVal.truthy : JsVal → Bool
  | .jsUndefined => false
  | .null => false
  | .bool b => b
  | .num n => ¬ n = 0
  | .str s => ¬ s = ""
  | .arr _ => true
  | .obj _ => true

/-- Property access v.results as JavaScript evaluates it on a non-nullish
value: an object yields the field (or undefined), every other shape yields
undefined (array index properties are irrelevant for the field "results"). -/
def JsVal.getField (v : JsVal) (key : String) : JsVal :=
  match v with
  | .obj fields => ((fields.find? (fun p => p.1 = key)).map (fun p => p.2)).getD .jsUndefined
  | _ => .jsUndefined

/-- Array.isArray. -/
def JsVal.isArray : JsVal → Bool
  | .arr _ => true
  | _ => false

/-- Embedding of documentsApi.list response handling (src/unnamed/part_004
lines 43-51): if response.data && response.data.results is truthy, return
response.data.results; else return response.data when it is an array, and
the empty array otherwise. -/
def documentsList (data : JsVal) : JsVal :=
  if data.truthy && (data.getField "results").truthy then data.getField "results"
  else if data.isArray then data
  else .arr []

end Frontend

/-! ## Hybrid retriever pipeline (spec section 4.1)

Modelled from the spec: the hybrid search implementation is not under src/
(only its configuration defaults in settings.py.backup, the combine_scores
sketch in setup.sh and the /api/rag/search/ response shape in
docs/DEPLOYMENT.md are); the spec gives min-max normalization per backend,
deduplication by chunk id, weighted blending with a missing dimension scored
0, stable descending sort by combined score, graceful degradation when one
backend fails and a Retrieval Error only when both fail. -/

/-- Raw backend result: chunks paired with raw scores. -/
abbrev RawResult := List (Chunk × ℚ)

/-- Modelled from the spec: min-max normalization of one backend's raw scores
over the returned result set; if all scores in the set are equal they
normalize to 1.0 to avoid a division by zero. -/
def normalizeScores (l : RawResult) : RawResult :=
  match l with
  | [] => []
  | x :: xs =>
    let mx := (xs.map Prod.snd).foldl max x.2
    let mn := (xs.map Prod.snd).foldl min x.2
    if mx = mn then l.map (fun p => (p.1, 1))
    else l.map (fun p => (p.1, (p.2 - mn) / (mx - mn)))

/-- Worker for deduplication by chunk id, keeping the first occurrence. -/
def dedupByIdGo (seen : List String) : RawResult → RawResult
  | [] => []
  | p :: rest =>
    if p.1.id ∈ seen then dedupByIdGo seen rest
    else p :: dedupByIdGo (p.1.id :: seen) rest

/-- Modelled from the spec: deduplicate a backend result set by chunk.id
before blending. -/
def dedupById (l : RawResult) : RawResult := dedupByIdGo [] l

/-- Score of the chunk with the given id in a backend result set, 0 when the
chunk is missing from that set (spec: treat the missing score as 0). -/
def lookupScore (id : String) (l : RawResult) : ℚ :=
  ((l.find? (fun p => p.1.id = id)).map Prod.snd).getD 0

/-- Chunk ids of a backend result set, in order. -/
def idsOf (l : RawResult) : List String := l.map (fun p => p.1.id)

/-- Modelled from the spec: blend the two normalized, deduplicated result
sets; a chunk in both sets combines both scores with the configured weights,
a chunk in only one set has the missing dimension scored 0. -/
def blend (R : Retriever) (sem kw : RawResult) : List ScoredChunk :=
  let semD := dedupById sem
  let kwD := dedupById kw
  let semIds := semD.map (fun p => p.1.id)
  let semPart := semD.map (fun p =>
    let t := lookupScore p.1.id kwD
    ⟨p.1, p.2, t, R.semantic_weight * p.2 + R.keyword_weight * t⟩)
  let kwPart := (kwD.filter (fun p => ¬ p.1.id ∈ semIds)).map (fun p =>
    (⟨p.1, 0, p.2, R.semantic_weight * 0 + R.keyword_weight * p.2⟩ : ScoredChunk))
  semPart ++ kwPart

/-- Descending order on combined scores: a comes no later than b when
b.combined_score ≤ a.combined_score. -/
def combGE (a b : ScoredChunk) : Prop := b.combined_score ≤ a.combined_score

instance : DecidableRel combGE := fun a b =>
  (inferInstance : Decidable (b.combined_score ≤ a.combined_score))

instance : IsTotal ScoredChunk combGE :=
  ⟨fun a b => le_total b.combined_score a.combined_score⟩

instance : IsTrans ScoredChunk combGE :=
  ⟨fun _ _ _ hab hbc => le_trans hbc hab⟩

/-- Modelled from the spec: rank blended chunks descending by combined score
with a stable sort (ties keep their original index rank). -/
def rankChunks (l : List ScoredChunk) : List ScoredChunk :=
  List.insertionSort combGE l

/-- Error of a single search backend. -/
inductive BackendError where
  | timeout
  | failure (msg : String)
deriving DecidableEq, Repr

/-- Retrieval Error: raised only when both backends fail, naming both
failures (spec section 7). -/
inductive RetrievalError where
  | bothFailed (semErr kwErr : BackendError)
deriving DecidableEq, Repr

/-- Modelled from the spec: hybrid Search over the two backend outcomes.
If both fail it is a Retrieval Error; if one fails the call degrades to the
surviving backend's results alone (the missing dimension scored 0); both
succeeding blends the two sets.  Returns at most k chunks, ranked. -/
def hybridSearch (R : Retriever) (k : Nat)
    (semRes kwRes : Except BackendError RawResult) :
    Except RetrievalError (List ScoredChunk) :=
  match semRes, kwRes with
  | .error e1, .error e2 => .error (.bothFailed e1 e2)
  | .ok s, .error _ => .ok ((rankChunks (blend R (normalizeScores s) [])).take k)
  | .error _, .ok t => .ok ((rankChunks (blend R [] (normalizeScores t))).take k)
  | .ok s, .ok t =>
      .ok ((rankChunks (blend R (normalizeScores s) (normalizeScores t))).take k)

/-! ## Context assembler (spec section 4.4)

Modelled from the spec: the assembler implementation is not under src/; the
spec requires greedy whole-chunk selection in descending combined-score order
within the token budget, with the single-chunk-overflow truncation case. -/

/-- Greedy selection: include whole chunks in the given (descending-score)
order while they fit the remaining budget, stopping before the first chunk
that would exceed it. -/
def pickChunks (budget : Nat) : List ScoredChunk → List Chunk
  | [] => []
  | c :: rest =>
    if c.chunk.token_count ≤ budget then
      c.chunk :: pickChunks (budget - c.chunk.token_count) rest
    else []

/-- Truncation of a chunk to the token budget. -/
def truncateChunk (c : Chunk) (budget : Nat) : Chunk :=
  { c with token_count := min c.token_count budget, text := c.text.take budget }

/-- Total token count of a list of chunks. -/
def totalTokens (l : List Chunk) : Nat := (l.map Chunk.token_count).sum

/-- Result of Assemble: the context string, the chunks used and the
truncation flag in the returned metadata. -/
structure AssembleResult where
  context : String
  chunks_used : List Chunk
  truncated : Bool
deriving DecidableEq, Repr

/-- Modelled from the spec: Assemble greedily includes whole chunks in the
given descending combined-score order up to max_tokens; when zero chunks fit
and the result set is nonempty, the first (highest-scoring) chunk is
truncated to the budget, included alone, and flagged as truncated. -/
def assemble (rr : List ScoredChunk) (max_tokens : Nat) : AssembleResult :=
  match pickChunks max_tokens rr with
  | [] =>
    match rr with
    | [] => ⟨"", [], false⟩
    | c :: _ =>
      let t := truncateChunk c.chunk max_tokens
      ⟨t.text, [t], true⟩
  | picked => ⟨String.intercalate "\n\n" (picked.map Chunk.text), picked, false⟩

/-! ## Provider gateway (spec section 4.2)

Modelled from the spec: the gateway implementation is not under src/ (only
the FALLBACK_ORDER and PROVIDER_TIMEOUTS sketches in docs/INSTALLATION.md
and the fallback_used response field in docs/DEPLOYMENT.md are); the spec
requires an ordered provider list tried in order, an attempt failing on
timeout, error response or empty response, fallback_used set when any
provider beyond the first succeeds, and a Generation Error listing the
providers attempted when all fail. -/

/-- Outcome of one provider attempt: a timeout, a non-2xx/error response, or
a returned text (an empty text is also a failed attempt). -/
inductive ProviderOutcome where
  | timeout
  | httpError (status : Nat)
  | response (text : String)
deriving DecidableEq, Repr

/-- A configured provider: its name and its behavior on a prompt. -/
structure Provider where
  name : String
  call : String → ProviderOutcome

/-- Text of a successful attempt; none when the attempt fails (timeout,
error response, or empty response). -/
def providerText : ProviderOutcome → Option String
  | .timeout => none
  | .httpError _ => none
  | .response t => if t = "" then none else some t

/-- GenerationResult as in spec section 3 (latency is not modelled). -/
structure GenerationResult where
  text : String
  provider_used : String
  fallback_used : Bool
deriving DecidableEq, Repr

/-- Generation Error: every configured provider failed; carries the names of
the providers attempted (spec section 7). -/
inductive GenError where
  | allProvidersFailed (attempted : List String)
deriving DecidableEq, Repr

/-- Worker for Generate: tries the providers in order; isFallback records
whether at least one earlier provider has already failed.  Returns the
outcome together with the number of providers invoked. -/
def generateGo (prompt : String) (isFallback : Bool) :
    List Provider → Except (List String) GenerationResult × Nat
  | [] => (.error [], 0)
  | p :: rest =>
    match providerText (p.call prompt) with
    | some t => (.ok ⟨t, p.name, isFallback⟩, 1)
    | none =>
      match generateGo prompt true rest with
      | (.error names, n) => (.error (p.name :: names), n + 1)
      | (.ok r, n) => (.ok r, n + 1)

/-- Modelled from the spec: Generate tries the configured providers strictly
in order, stops at the first success, marks fallback_used when the first
provider did not succeed, and returns a Generation Error naming every
attempted provider when all fail.  The second component counts the providers
actually invoked. -/
def generate (providers : List Provider) (prompt : String) :
    Except GenError GenerationResult × Nat :=
  match generateGo prompt false providers with
  | (.error names, n) => (.error (.allProvidersFailed names), n)
  | (.ok r, n) => (.ok r, n)

/-! ## Orchestrator state machine (spec section 4.5)

Modelled from the spec: the orchestrator implementation is not under src/
(only the LangGraph routing sketch in src/unnamed/part_000 is); the spec
defines the PLAN/SEARCH/CHECK_RETRIEVAL/REFINE/ASSEMBLE/GENERATE/
CHECK_ANSWER/FINALIZE/ABORTED machine with attempt counters.  The external
calls (search, rewrite, generate) and the quality evaluator are oracles of
the environment, indexed by the attempt number so each invocation may behave
differently.  Per the scenarios of spec section 8, search_attempts and
generation_attempts count the SEARCH and GENERATE invocations performed. -/

/-- Phases of the orchestrator state machine (spec section 4.5). -/
inductive Phase where
  | PLAN | SEARCH | CHECK_RETRIEVAL | REFINE | ASSEMBLE
  | GENERATE | CHECK_ANSWER | FINALIZE | ABORTED
deriving DecidableEq, Repr

/-- Orchestrator configuration knobs (spec section 6). -/
structure OrchConfig where
  max_search_attempts : Nat
  max_generation_attempts : Nat
  max_context_tokens : Nat
  quality_threshold : ℚ
deriving DecidableEq, Repr

/-- Environment of one run: outcomes of the external calls, indexed by how
many invocations of that call already happened, plus the deterministic
quality evaluator. -/
structure OrchEnv where
  searchOutcome : Nat → String → Except RetrievalError (List ScoredChunk)
  evalRetrieval : List ScoredChunk → ℚ
  rewriteOutcome : Nat → String → Option String
  generateOutcome : Nat → String → Option String
  evalAnswer : String → ℚ

/-- Keeps the best RetrievalResult obtained so far, judged by the retrieval
evaluator (spec: ASSEMBLE uses the best result obtained so far). -/
def betterOf (env : OrchEnv) (best : Option (List ScoredChunk))
    (r : List ScoredChunk) : Option (List ScoredChunk) :=
  match best with
  | none => some r
  | some b => if env.evalRetrieval b < env.evalRetrieval r then some r else some b

/-- Outcome of the SEARCH/CHECK_RETRIEVAL/REFINE loop: SEARCH invocations
performed, best result obtained, and whether the run aborted (Retrieval
Error with no prior result). -/
structure SearchLoopOut where
  searches : Nat
  best : Option (List ScoredChunk)
  aborted : Bool
deriving Repr

/-- Modelled from the spec: the SEARCH → CHECK_RETRIEVAL → REFINE → SEARCH
loop.  fuel is the number of SEARCH invocations still allowed (initially
max_search_attempts), done counts those performed.  CHECK_RETRIEVAL proceeds
to ASSEMBLE when the score reaches the threshold or the attempts are
exhausted; REFINE failing is non-fatal and also proceeds to ASSEMBLE; a
Retrieval Error aborts only when no prior result exists. -/
def searchLoop (cfg : OrchConfig) (env : OrchEnv) :
    Nat → String → Nat → Option (List ScoredChunk) → SearchLoopOut
  | 0, _, done, best => ⟨done, best, false⟩
  | fuel + 1, q, done, best =>
    match env.searchOutcome done q with
    | .error _ =>
      match best with
      | none => ⟨done + 1, none, true⟩
      | some b => ⟨done + 1, some b, false⟩
    | .ok r =>
      let best2 := betterOf env best r
      if cfg.quality_threshold ≤ env.evalRetrieval r then ⟨done + 1, best2, false⟩
      else if fuel = 0 then ⟨done + 1, best2, false⟩
      else
        match env.rewriteOutcome done q with
        | some q2 => searchLoop cfg env fuel q2 (done + 1) best2
        | none => ⟨done + 1, best2, false⟩

/-- Outcome of the GENERATE/CHECK_ANSWER loop: GENERATE invocations
performed, the answer (when one was produced), and whether the run aborted
(Generation Error). -/
structure GenLoopOut where
  gens : Nat
  answer : Option String
  aborted : Bool
deriving DecidableEq, Repr

/-- Modelled from the spec: the GENERATE → CHECK_ANSWER → GENERATE loop over
a fixed prompt.  fuel is the number of GENERATE invocations still allowed
(initially max_generation_attempts); CHECK_ANSWER finalizes when the score
reaches the threshold or the attempts are exhausted; a Generation Error
(all providers failed) aborts the run. -/
def genLoop (cfg : OrchConfig) (env : OrchEnv) :
    Nat → String → Nat → GenLoopOut
  | 0, _, done => ⟨done, none, false⟩
  | fuel + 1, prompt, done =>
    match env.generateOutcome done prompt with
    | none => ⟨done + 1, none, true⟩
    | some ans =>
      if cfg.quality_threshold ≤ env.evalAnswer ans then ⟨done + 1, some ans, false⟩
      else if fuel = 0 then ⟨done + 1, some ans, false⟩
      else genLoop cfg env fuel prompt (done + 1)

/-- Prompt built from the assembled context and the original user query
(spec: GENERATE always uses the original query, never the refined one). -/
def buildPrompt (context originalQuery : String) : String :=
  context ++ "\n\n" ++ originalQuery

/-- Result of one orchestrator run: final phase, the two attempt counters
(SEARCH and GENERATE invocations performed) and the answer if any. -/
structure RunResult where
  phase : Phase
  searches : Nat
  gens : Nat
  answer : Option String
deriving Repr

/-- Modelled from the spec: one Orchestrator Run.  PLAN zeroes the counters,
the search loop runs, a Retrieval Error with no prior result aborts;
otherwise ASSEMBLE builds the context from the best result obtained (empty
context when none) and the generation loop runs; a Generation Error aborts,
otherwise the run finalizes. -/
def orchestratorRun (cfg : OrchConfig) (env : OrchEnv) (query : String) : RunResult :=
  let s := searchLoop cfg env cfg.max_search_attempts query 0 none
  if s.aborted then ⟨.ABORTED, s.searches, 0, none⟩
  else
    let ctx := assemble (s.best.getD []) cfg.max_context_tokens
    let g := genLoop cfg env cfg.max_generation_attempts
      (buildPrompt ctx.context query) 0
    if g.aborted then ⟨.ABORTED, s.searches, g.gens, none⟩
    else ⟨.FINALIZE, s.searches, g.gens, g.answer⟩

/-! ## Theorems -/

/-- Removing a key from localStorage makes it unreadable. -/
theorem BrowserState.getItem_removeItem (st : Frontend.BrowserState) (key : String) :
    (st.removeItem key).getItem key = none := by
  simp [Frontend.BrowserState.getItem, Frontend.BrowserState.removeItem,
    List.find?_eq_none, List.mem_filter]

/-- C2: constructing the system with semantic and keyword weights whose sum
differs from 1.0 fails at construction of the Retriever with a fatal
configuration error, before any query is served; every accepted
configuration satisfies semantic_weight + keyword_weight = 1, and the
repository's default weights (0.7 and 0.3) are accepted. -/
theorem claim_C2_weight_validation (sw kw : ℚ) :
    (mkRetriever sw kw = .error (.invalidWeights sw kw) ↔ sw + kw ≠ 1) ∧
    (∀ r : Retriever, mkRetriever sw kw = .ok r →
      r.semantic_weight + r.keyword_weight = 1) ∧
    mkRetriever SEMANTIC_WEIGHT BM25_WEIGHT =
      .ok ⟨SEMANTIC_WEIGHT, BM25_WEIGHT⟩ := by
  refine ⟨?_, ?_, ?_⟩
  · unfold mkRetriever
    split
    · simp_all
    · simp_all
  · intro r hr
    unfold mkRetriever at hr
    split at hr
    · cases hr
      assumption
    · cases hr
  · unfold mkRetriever
    rw [if_pos]
    unfold SEMANTIC_WEIGHT BM25_WEIGHT
    norm_num

/-- C2 witness: the pair (0.7, 0.5) sums to 1.2 and is rejected at
construction, while the defaults are accepted. -/
theorem claim_C2_weight_validation_witness :
    mkRetriever (7/10) (5/10) = .error (.invalidWeights (7/10) (5/10)) :=
  (claim_C2_weight_validation (7/10) (5/10)).1.mpr (by norm_num)

/-- Greedy selection never exceeds its budget. -/
theorem totalTokens_pickChunks_le :
    ∀ (l : List ScoredChunk) (budget : Nat),
      totalTokens (pickChunks budget l) ≤ budget := by
  intro l
  induction l with
  | nil =>
    intro b
    simp [pickChunks, totalTokens]
  | cons c rest ih =>
    intro b
    by_cases h : c.chunk.token_count ≤ b
    · have hrest := ih (b - c.chunk.token_count)
      simp only [pickChunks, if_pos h, totalTokens, List.map_cons, List.sum_cons]
      unfold totalTokens at hrest
      omega
    · simp [pickChunks, if_neg h, totalTokens]

/-- Every chunk selected by the greedy pass is a whole chunk of the input. -/
theorem mem_pickChunks :
    ∀ (l : List ScoredChunk) (budget : Nat) (c : Chunk),
      c ∈ pickChunks budget l → c ∈ l.map ScoredChunk.chunk := by
  intro l
  induction l with
  | nil =>
    intro b c hc
    simp [pickChunks] at hc
  | cons d rest ih =>
    intro b c hc
    by_cases h : d.chunk.token_count ≤ b
    · rw [pickChunks, if_pos h] at hc
      rcases List.mem_cons.mp hc with h1 | h1
      · simp [h1]
      · exact List.mem_cons_of_mem _ (ih _ c h1)
    · rw [pickChunks, if_neg h] at hc
      cases hc

/-- C6: for every RetrievalResult and budget, Assemble returns chunks whose
total token count never exceeds max_tokens; when not truncated every chunk
used is a whole chunk of the input (greedy whole-chunk selection, never
split); the truncated case arises exactly from a nonempty input whose first
(highest-scoring) chunk exceeds the budget, which is then truncated to the
budget and included alone. -/
theorem claim_C6_budget_invariant (rr : List ScoredChunk) (max_tokens : Nat) :
    totalTokens (assemble rr max_tokens).chunks_used ≤ max_tokens ∧
    ((assemble rr max_tokens).truncated = false →
      ∀ c ∈ (assemble rr max_tokens).chunks_used, c ∈ rr.map ScoredChunk.chunk) ∧
    ((assemble rr max_tokens).truncated = true →
      ∃ c rest, rr = c :: rest ∧ max_tokens < c.chunk.token_count ∧
        (assemble rr max_tokens).chunks_used =
          [truncateChunk c.chunk max_tokens]) := by
  cases hp : pickChunks max_tokens rr with
  | nil =>
    cases rr with
    | nil =>
      refine ⟨?_, ?_, ?_⟩
      · simp [assemble, hp, totalTokens]
      · intro _ c hc
        simp [assemble, hp] at hc
      · intro habs
        simp [assemble, hp] at habs
    | cons c rest =>
      have hbig : max_tokens < c.chunk.token_count := by
        by_contra hle
        rw [pickChunks, if_pos (by omega)] at hp
        cases hp
      refine ⟨?_, ?_, ?_⟩
      · simp [assemble, hp, totalTokens, truncateChunk]
      · intro habs
        simp [assemble, hp] at habs
      · intro _
        exact ⟨c, rest, rfl, hbig, by simp [assemble, hp]⟩
  | cons p ps =>
    refine ⟨?_, ?_, ?_⟩
    · have := totalTokens_pickChunks_le rr max_tokens
      simpa [assemble, hp] using this
    · intro _ c hc
      simp only [assemble, hp] at hc
      exact mem_pickChunks rr max_tokens c (hp ▸ hc)
    · intro habs
      simp [assemble, hp] at habs

/-- C6 witness: a single 100-token chunk against a 10-token budget exceeds
the budget, is truncated to it, and the budget invariant still holds. -/
theorem claim_C6_budget_invariant_witness :
    totalTokens (assemble [⟨⟨"c1", "d1", "texto", 100⟩, 1, 1, 1⟩] 10).chunks_used ≤ 10 ∧
    (∃ c rest, [(⟨⟨"c1", "d1", "texto", 100⟩, 1, 1, 1⟩ : ScoredChunk)] = c :: rest ∧
      10 < c.chunk.token_count ∧
      (assemble [⟨⟨"c1", "d1", "texto", 100⟩, 1, 1, 1⟩] 10).chunks_used =
        [truncateChunk c.chunk 10]) :=
  ⟨(claim_C6_budget_invariant [⟨⟨"c1", "d1", "texto", 100⟩, 1, 1, 1⟩] 10).1,
   (claim_C6_budget_invariant [⟨⟨"c1", "d1", "texto", 100⟩, 1, 1, 1⟩] 10).2.2 rfl⟩

/-- Unfolding equation of the search loop at a positive fuel. -/
theorem searchLoop_succ (cfg : OrchConfig) (env : OrchEnv) (fuel : Nat)
    (q : String) (done : Nat) (best : Option (List ScoredChunk)) :
    searchLoop cfg env (fuel + 1) q done best =
      match env.searchOutcome done q with
      | .error _ =>
        match best with
        | none => ⟨done + 1, none, true⟩
        | some b => ⟨done + 1, some b, false⟩
      | .ok r =>
        let best2 := betterOf env best r
        if cfg.quality_threshold ≤ env.evalRetrieval r then ⟨done + 1, best2, false⟩
        else if fuel = 0 then ⟨done + 1, best2, false⟩
        else
          match env.rewriteOutcome done q with
          | some q2 => searchLoop cfg env fuel q2 (done + 1) best2
          | none => ⟨done + 1, best2, false⟩ := rfl

/-- Unfolding equation of the generation loop at a positive fuel. -/
theorem genLoop_succ (cfg : OrchConfig) (env : OrchEnv) (fuel : Nat)
    (prompt : String) (done : Nat) :
    genLoop cfg env (fuel + 1) prompt done =
      match env.generateOutcome done prompt with
      | none => ⟨done + 1, none, true⟩
      | some ans =>
        if cfg.quality_threshold ≤ env.evalAnswer ans then ⟨done + 1, some ans, false⟩
        else if fuel = 0 then ⟨done + 1, some ans, false⟩
        else genLoop cfg env fuel prompt (done + 1) := rfl

/-- The search loop performs at most as many SEARCH invocations as it has
fuel, on top of those already done. -/
theorem searchLoop_searches_le (cfg : OrchConfig) (env : OrchEnv) :
    ∀ (fuel : Nat) (q : String) (done : Nat)
      (best : Option (List ScoredChunk)),
      (searchLoop cfg env fuel q done best).searches ≤ done + fuel := by
  intro fuel
  induction fuel with
  | zero =>
    intro q done best
    exact Nat.le_refl done
  | succ n ih =>
    intro q done best
    rw [searchLoop_succ]
    cases env.searchOutcome done q with
    | error e =>
      cases best <;> simp
    | ok r =>
      simp only
      by_cases h1 : cfg.quality_threshold ≤ env.evalRetrieval r
      · simp only [if_pos h1]
        omega
      · rw [if_neg h1]
        by_cases h2 : n = 0
        · rw [if_pos h2]
          dsimp only
          omega
        · rw [if_neg h2]
          cases env.rewriteOutcome done q with
          | some q2 =>
            calc (searchLoop cfg env n q2 (done + 1) (betterOf env best r)).searches
                ≤ (done + 1) + n := ih q2 (done + 1) (betterOf env best r)
              _ = done + (n + 1) := by omega
          | none =>
            simp only
            omega

/-- The generation loop performs at most as many GENERATE invocations as it
has fuel, on top of those already done. -/
theorem genLoop_gens_le (cfg : OrchConfig) (env : OrchEnv) :
    ∀ (fuel : Nat) (prompt : String) (done : Nat),
      (genLoop cfg env fuel prompt done).gens ≤ done + fuel := by
  intro fuel
  induction fuel with
  | zero =>
    intro prompt done
    exact Nat.le_refl done
  | succ n ih =>
    intro prompt done
    rw [genLoop_succ]
    cases env.generateOutcome done prompt with
    | none =>
      simp only
      omega
    | some ans =>
      simp only
      by_cases h1 : cfg.quality_threshold ≤ env.evalAnswer ans
      · rw [if_pos h1]
        dsimp only
        omega
      · rw [if_neg h1]
        by_cases h2 : n = 0
        · rw [if_pos h2]
          dsimp only
          omega
        · rw [if_neg h2]
          calc (genLoop cfg env n prompt (done + 1)).gens
              ≤ (done + 1) + n := ih prompt (done + 1)
            _ = done + (n + 1) := by omega

/-- C1: for every input query, configuration and environment, one
Orchestrator Run performs at most max_search_attempts SEARCH invocations
and at most max_generation_attempts GENERATE invocations, and always ends
in a terminal phase (FINALIZE or ABORTED): the state machine terminates. -/
theorem claim_C1_bounded_attempts (cfg : OrchConfig) (env : OrchEnv)
    (query : String) :
    ((orchestratorRun cfg env query).phase = Phase.FINALIZE ∨
      (orchestratorRun cfg env query).phase = Phase.ABORTED) ∧
    (orchestratorRun cfg env query).searches ≤ cfg.max_search_attempts ∧
    (orchestratorRun cfg env query).gens ≤ cfg.max_generation_attempts := by
  have hs := searchLoop_searches_le cfg env cfg.max_search_attempts query 0 none
  have hg := genLoop_gens_le cfg env cfg.max_generation_attempts
    (buildPrompt (assemble
      ((searchLoop cfg env cfg.max_search_attempts query 0 none).best.getD [])
      cfg.max_context_tokens).context query) 0
  cases habort : (searchLoop cfg env cfg.max_search_attempts query 0 none).aborted
  · cases habort2 : (genLoop cfg env cfg.max_generation_attempts
        (buildPrompt (assemble
          ((searchLoop cfg env cfg.max_search_attempts query 0 none).best.getD [])
          cfg.max_context_tokens).context query) 0).aborted
    · simp [orchestratorRun, habort, habort2]
      exact ⟨by simpa using hs, by simpa using hg⟩
    · simp [orchestratorRun, habort, habort2]
      exact ⟨by simpa using hs, by simpa using hg⟩
  · simp [orchestratorRun, habort]
    simpa using hs

/-- When every provider of the list fails on the prompt, the gateway worker
returns the full list of attempted names and invokes them all. -/
theorem generateGo_all_fail (prompt : String) (b : Bool) :
    ∀ ps : List Provider, (∀ q ∈ ps, providerText (q.call prompt) = none) →
      generateGo prompt b ps = (.error (ps.map Provider.name), ps.length) := by
  intro ps
  induction ps generalizing b with
  | nil => intro _; rfl
  | cons p rest ih =>
    intro hall
    have hp := hall p (List.mem_cons_self p rest)
    have hrest := ih true (fun q hq => hall q (List.mem_cons_of_mem p hq))
    simp [generateGo, hp, hrest]

/-- When an initial segment of providers all fail and the next provider
succeeds, the gateway worker returns that provider's text, marks fallback
when anything preceded it, and invokes exactly the failing ones plus the
succeeding one. -/
theorem generateGo_first_success (prompt : String) :
    ∀ (failing : List Provider) (b : Bool) (p : Provider)
      (rest : List Provider) (t : String),
      (∀ q ∈ failing, providerText (q.call prompt) = none) →
      providerText (p.call prompt) = some t →
      generateGo prompt b (failing ++ p :: rest) =
        (.ok ⟨t, p.name, b || !failing.isEmpty⟩, failing.length + 1) := by
  intro failing
  induction failing with
  | nil =>
    intro b p rest t _ hp
    simp [generateGo, hp]
  | cons f fs ih =>
    intro b p rest t hfail hp
    have hf := hfail f (List.mem_cons_self f fs)
    have htail := ih true p rest t (fun q hq => hfail q (List.mem_cons_of_mem f hq)) hp
    show generateGo prompt b (f :: (fs ++ p :: rest)) = _
    simp [generateGo, hf, htail, List.isEmpty_cons]

/-- C3: Generate tries the configured providers strictly in their configured
order; when an initial segment of providers fails and the next one succeeds,
the returned GenerationResult carries that provider's text and name with
fallback_used true exactly when the first provider was not the one that
succeeded, and only the failing ones plus the succeeding one are invoked
(never any provider after the first success); when every provider fails,
Generate returns a Generation Error naming all attempted providers. -/
theorem claim_C3_fallback_order (prompt : String) :
    (∀ (failing rest : List Provider) (p : Provider) (t : String),
      (∀ q ∈ failing, providerText (q.call prompt) = none) →
      providerText (p.call prompt) = some t →
      generate (failing ++ p :: rest) prompt =
        (.ok ⟨t, p.name, !failing.isEmpty⟩, failing.length + 1)) ∧
    (∀ providers : List Provider,
      (∀ q ∈ providers, providerText (q.call prompt) = none) →
      generate providers prompt =
        (.error (.allProvidersFailed (providers.map Provider.name)),
         providers.length)) := by
  constructor
  · intro failing rest p t hfail hp
    unfold generate
    rw [generateGo_first_success prompt failing false p rest t hfail hp]
    rfl
  · intro providers hall
    unfold generate
    rw [generateGo_all_fail prompt false providers hall]

/-- C3 witness: with providers cohere (times out) then groq (answers), the
result is groq's text with fallback_used true and exactly two providers
invoked; with both failing, Generate returns the Generation Error naming
both. -/
theorem claim_C3_fallback_order_witness :
    generate [⟨"cohere", fun _ => .timeout⟩,
              ⟨"groq", fun _ => .response "resposta"⟩] "pergunta" =
      (.ok ⟨"resposta", "groq", true⟩, 2) ∧
    generate [⟨"cohere", fun _ => .timeout⟩,
              ⟨"groq", fun _ => .httpError 500⟩] "pergunta" =
      (.error (.allProvidersFailed ["cohere", "groq"]), 2) := by
  constructor
  · exact (claim_C3_fallback_order "pergunta").1
      [⟨"cohere", fun _ => .timeout⟩] [] ⟨"groq", fun _ => .response "resposta"⟩
      "resposta"
      (by
        intro q hq
        rw [List.mem_singleton] at hq
        subst hq
        rfl)
      (by
        show providerText (.response "resposta") = some "resposta"
        simp [providerText])
  · exact (claim_C3_fallback_order "pergunta").2
      [⟨"cohere", fun _ => .timeout⟩, ⟨"groq", fun _ => .httpError 500⟩]
      (by
        intro q hq
        rw [List.mem_cons, List.mem_singleton] at hq
        rcases hq with h | h <;> subst h <;> rfl)

/-- C8: for every hostname and every value of REACT_APP_API_URL, the
frontend client's getApiBaseUrl returns the constant
http-localhost-8000-api URL: the early return makes the hostname and
environment branches unreachable, so two runs with different environments
always select the same backend base URL. -/
theorem claim_C8_base_url_constant :
    (∀ hostname envUrl,
      Frontend.getApiBaseUrl hostname envUrl = "http://localhost:8000/api") ∧
    (∀ h1 e1 h2 e2,
      Frontend.getApiBaseUrl h1 e1 = Frontend.getApiBaseUrl h2 e2) := by
  constructor
  · intro hostname envUrl
    rfl
  · intro h1 e1 h2 e2
    rfl

/-- C9: the response interceptor removes the sessionToken entry from
localStorage and redirects to /login exactly when the failed response's
status is 401; on every other status the browser state is left unchanged;
in all cases the error is re-rejected to the caller. -/
theorem claim_C9_interceptor_401 (st : Frontend.BrowserState)
    (err : Frontend.HttpError) :
    ((Frontend.onResponseError st err).2 = .reject err) ∧
    (err.responseStatus = some 401 →
      (Frontend.onResponseError st err).1.getItem "sessionToken" = none ∧
      (Frontend.onResponseError st err).1.locationHref = "/login") ∧
    (∀ s, err.responseStatus = some s → s ≠ 401 →
      (Frontend.onResponseError st err).1 = st) := by
  refine ⟨rfl, ?_, ?_⟩
  · intro h401
    unfold Frontend.onResponseError
    simp only [h401, if_pos rfl]
    exact ⟨BrowserState.getItem_removeItem _ _, rfl⟩
  · intro s hs hne
    unfold Frontend.onResponseError
    simp [hs, hne]

/-- C9 witness: a 401 error against a state holding a session token clears
the token, redirects to /login, and re-rejects. -/
theorem claim_C9_interceptor_401_witness :
    (Frontend.onResponseError ⟨[("sessionToken", "abc")], "/chat"⟩
        ⟨some 401⟩).1.getItem "sessionToken" = none ∧
    (Frontend.onResponseError ⟨[("sessionToken", "abc")], "/chat"⟩
        ⟨some 401⟩).1.locationHref = "/login" ∧
    (Frontend.onResponseError ⟨[("sessionToken", "abc")], "/chat"⟩
        ⟨some 403⟩).1 = ⟨[("sessionToken", "abc")], "/chat"⟩ :=
  ⟨((claim_C9_interceptor_401 _ _).2.1 rfl).1,
   ((claim_C9_interceptor_401 _ _).2.1 rfl).2,
   (claim_C9_interceptor_401 _ _).2.2 403 rfl (by decide)⟩

/-- C10 counterexample: a response body whose results field is the truthy
non-array number 5 makes documentsApi.list return that number, so the
caller does receive a non-array value. -/
theorem claim_C10_counterexample :
    Frontend.documentsList (.obj [("results", .num 5)]) = .num 5 ∧
    (Frontend.documentsList (.obj [("results", .num 5)])).isArray = false := by
  constructor
  · rfl
  · rfl

/-- C10 as amended: documentsApi.list returns the results field whenever the
body and that field are truthy (whatever its shape, array or not); in every
other case the returned value is an array (the body itself when it is an
array, the empty array otherwise); in particular the value is an array
whenever the results field is an array or the truthy-results branch is not
taken. -/
theorem claim_C10_list_branches (data : Frontend.JsVal) :
    ((data.truthy && (data.getField "results").truthy) = true →
      Frontend.documentsList data = data.getField "results") ∧
    (¬ (data.truthy && (data.getField "results").truthy) = true →
      (Frontend.documentsList data).isArray = true) ∧
    ((data.getField "results").isArray = true →
      (Frontend.documentsList data).isArray = true) := by
  refine ⟨?_, ?_, ?_⟩
  · intro h
    unfold Frontend.documentsList
    simp [h]
  · intro h
    unfold Frontend.documentsList
    rw [if_neg h]
    split
    · next harr => exact harr
    · rfl
  · intro harr
    unfold Frontend.documentsList
    split
    · next h => exact harr
    · split
      · next h => exact h
      · rfl

/-- Normalization rescales scores but keeps the chunks, in order. -/
theorem map_fst_normalizeScores (l : RawResult) :
    (normalizeScores l).map Prod.fst = l.map Prod.fst := by
  cases l with
  | nil => rfl
  | cons x xs =>
    simp only [normalizeScores]
    split <;> simp [List.map_map, Function.comp]

/-- Normalization keeps the chunk ids, in order. -/
theorem idsOf_normalizeScores (l : RawResult) :
    idsOf (normalizeScores l) = idsOf l := by
  have h := map_fst_normalizeScores l
  have h1 : idsOf (normalizeScores l) = ((normalizeScores l).map Prod.fst).map Chunk.id := by
    simp [idsOf, List.map_map, Function.comp]
  have h2 : idsOf l = (l.map Prod.fst).map Chunk.id := by
    simp [idsOf, List.map_map, Function.comp]
  rw [h1, h2, h]

/-- Deduplication only drops entries, it never invents one. -/
theorem mem_dedupByIdGo :
    ∀ (l : RawResult) (seen : List String) (p : Chunk × ℚ),
      p ∈ dedupByIdGo seen l → p ∈ l := by
  intro l
  induction l with
  | nil =>
    intro seen p hp
    simp [dedupByIdGo] at hp
  | cons x rest ih =>
    intro seen p hp
    by_cases hx : x.1.id ∈ seen
    · rw [dedupByIdGo, if_pos hx] at hp
      exact List.mem_cons_of_mem x (ih seen p hp)
    · rw [dedupByIdGo, if_neg hx] at hp
      rcases List.mem_cons.mp hp with h | h
      · exact h ▸ List.mem_cons_self x rest
      · exact List.mem_cons_of_mem x (ih _ p h)

/-- The ids of a deduplicated result set are distinct and avoid the seen
set. -/
theorem dedupByIdGo_ids_nodup :
    ∀ (l : RawResult) (seen : List String),
      ((dedupByIdGo seen l).map (fun p => p.1.id)).Nodup ∧
      ∀ p ∈ dedupByIdGo seen l, ¬ p.1.id ∈ seen := by
  intro l
  induction l with
  | nil =>
    intro seen
    simp [dedupByIdGo]
  | cons x rest ih =>
    intro seen
    by_cases hx : x.1.id ∈ seen
    · rw [dedupByIdGo, if_pos hx]
      exact ih seen
    · rw [dedupByIdGo, if_neg hx]
      obtain ⟨hnd, hseen⟩ := ih (x.1.id :: seen)
      refine ⟨?_, ?_⟩
      · rw [List.map_cons, List.nodup_cons]
        refine ⟨?_, hnd⟩
        intro hmem
        obtain ⟨p, hp, hpid⟩ := List.mem_map.mp hmem
        exact hseen p hp (hpid ▸ List.mem_cons_self _ _)
      · intro p hp
        rcases List.mem_cons.mp hp with h | h
        · exact h ▸ hx
        · intro habs
          exact hseen p h (List.mem_cons_of_mem _ habs)

/-- A chunk id absent from a result set scores 0 there. -/
theorem lookupScore_eq_zero (id : String) (l : RawResult)
    (h : ¬ id ∈ idsOf l) : lookupScore id l = 0 := by
  have hnone : l.find? (fun p => p.1.id = id) = none := by
    rw [List.find?_eq_none]
    intro p hp
    simp only [decide_eq_true_eq]
    intro heq
    exact h (heq ▸ List.mem_map.mpr ⟨p, hp, rfl⟩)
  simp [lookupScore, hnone]

/-- Core properties of blending: every blended chunk's combined score is the
weighted sum of its two stored scores, a dimension whose backend set misses
the chunk is scored 0, every chunk comes from one of the two sets, and the
blended ids are distinct. -/
theorem blend_props (R : Retriever) (sem kw : RawResult) :
    (∀ c ∈ blend R sem kw,
      c.combined_score = R.semantic_weight * c.semantic_score +
        R.keyword_weight * c.keyword_score ∧
      (¬ c.chunk.id ∈ idsOf sem → c.semantic_score = 0) ∧
      (¬ c.chunk.id ∈ idsOf kw → c.keyword_score = 0) ∧
      (c.chunk ∈ sem.map Prod.fst ∨ c.chunk ∈ kw.map Prod.fst)) ∧
    ((blend R sem kw).map (fun c => c.chunk.id)).Nodup := by
  constructor
  · intro c hc
    simp only [blend, List.mem_append] at hc
    rcases hc with h | h
    · obtain ⟨p, hp, rfl⟩ := List.mem_map.mp h
      have hpm : p ∈ sem := mem_dedupByIdGo sem [] p hp
      refine ⟨rfl, ?_, ?_, ?_⟩
      · intro hno
        exact absurd (List.mem_map.mpr ⟨p, hpm, rfl⟩) hno
      · intro hno
        apply lookupScore_eq_zero
        intro habs
        obtain ⟨q, hq, hqid⟩ := List.mem_map.mp habs
        exact hno (List.mem_map.mpr ⟨q, mem_dedupByIdGo kw [] q hq, hqid⟩)
      · exact Or.inl (List.mem_map.mpr ⟨p, hpm, rfl⟩)
    · obtain ⟨p, hp, rfl⟩ := List.mem_map.mp h
      have hpk : p ∈ dedupById kw := (List.mem_filter.mp hp).1
      have hpm : p ∈ kw := mem_dedupByIdGo kw [] p hpk
      refine ⟨rfl, ?_, ?_, ?_⟩
      · intro _
        rfl
      · intro hno
        exact absurd (List.mem_map.mpr ⟨p, hpm, rfl⟩) hno
      · exact Or.inr (List.mem_map.mpr ⟨p, hpm, rfl⟩)
  · simp only [blend, List.map_append, List.map_map]
    apply List.Nodup.append
    · have := (dedupByIdGo_ids_nodup sem []).1
      simpa [Function.comp] using this
    · have hnd := (dedupByIdGo_ids_nodup kw []).1
      have hsub : List.Sublist
          (((dedupById kw).filter
            (fun p => ¬ p.1.id ∈ (dedupById sem).map (fun p => p.1.id))).map
              (fun p => p.1.id))
          ((dedupById kw).map (fun p => p.1.id)) :=
        (List.filter_sublist _).map _
      have := hnd.sublist hsub
      simpa [Function.comp] using this
    · intro a ha hb
      simp only [Function.comp, List.mem_map] at ha hb
      obtain ⟨p, hp, hpid⟩ := ha
      obtain ⟨q, hq, hqid⟩ := hb
      have hqcond := (List.mem_filter.mp hq).2
      simp only [decide_eq_true_eq] at hqcond
      exact hqcond ⟨p, hp, by rw [hpid, hqid]⟩

/-- Membership survives ranking and truncation to k results. -/
theorem mem_of_mem_rank_take {l : List ScoredChunk} {k : Nat} {c : ScoredChunk}
    (hc : c ∈ (rankChunks l).take k) : c ∈ l :=
  (List.mem_insertionSort combGE).mp
    ((List.take_sublist k (rankChunks l)).subset hc)

/-- Distinctness of ids survives ranking and truncation to k results. -/
theorem nodup_ids_rank_take (l : List ScoredChunk) (k : Nat)
    (h : (l.map (fun c => c.chunk.id)).Nodup) :
    (((rankChunks l).take k).map (fun c => c.chunk.id)).Nodup := by
  have hperm := (List.perm_insertionSort combGE l).map (fun c => c.chunk.id)
  have h2 : ((rankChunks l).map (fun c => c.chunk.id)).Nodup :=
    hperm.nodup_iff.mpr h
  exact List.Nodup.sublist
    ((List.take_sublist k (rankChunks l)).map (fun c => c.chunk.id)) h2

/-- C4: when exactly one backend fails, Search succeeds with the surviving
backend's chunks, scoring the missing dimension 0 so each combined score is
the configured weight times the surviving normalized score; Search fails
(with a Retrieval Error naming both failures) only when both backends fail,
and never fails when both succeed. -/
theorem claim_C4_degraded_retrieval (R : Retriever) (k : Nat) :
    (∀ (e : BackendError) (l : RawResult),
      ∃ rs, hybridSearch R k (.error e) (.ok l) = .ok rs ∧
        ∀ c ∈ rs, c.semantic_score = 0 ∧
          c.combined_score = R.keyword_weight * c.keyword_score ∧
          c.chunk ∈ l.map Prod.fst) ∧
    (∀ (e : BackendError) (l : RawResult),
      ∃ rs, hybridSearch R k (.ok l) (.error e) = .ok rs ∧
        ∀ c ∈ rs, c.keyword_score = 0 ∧
          c.combined_score = R.semantic_weight * c.semantic_score ∧
          c.chunk ∈ l.map Prod.fst) ∧
    (∀ e1 e2, hybridSearch R k (.error e1) (.error e2) =
        .error (.bothFailed e1 e2)) ∧
    (∀ sem kw, ∃ rs, hybridSearch R k (.ok sem) (.ok kw) = .ok rs) := by
  refine ⟨?_, ?_, fun e1 e2 => rfl, fun sem kw => ⟨_, rfl⟩⟩
  · intro e l
    refine ⟨_, rfl, ?_⟩
    intro c hc
    have hcm : c ∈ blend R [] (normalizeScores l) := mem_of_mem_rank_take hc
    obtain ⟨hcomb, hsem0, _, hor⟩ :=
      (blend_props R [] (normalizeScores l)).1 c hcm
    have hs0 : c.semantic_score = 0 := hsem0 (by simp [idsOf])
    refine ⟨hs0, ?_, ?_⟩
    · rw [hcomb, hs0, mul_zero, zero_add]
    · rcases hor with h | h
      · simp at h
      · rw [map_fst_normalizeScores] at h
        exact h
  · intro e l
    refine ⟨_, rfl, ?_⟩
    intro c hc
    have hcm : c ∈ blend R (normalizeScores l) [] := mem_of_mem_rank_take hc
    obtain ⟨hcomb, _, hkw0, hor⟩ :=
      (blend_props R (normalizeScores l) []).1 c hcm
    have hk0 : c.keyword_score = 0 := hkw0 (by simp [idsOf])
    refine ⟨hk0, ?_, ?_⟩
    · rw [hcomb, hk0, mul_zero, add_zero]
    · rcases hor with h | h
      · rw [map_fst_normalizeScores] at h
        exact h
      · simp at h

/-- C4 witness: with the semantic backend timing out and the keyword backend
returning two chunks, Search succeeds and every returned chunk carries a
zero semantic score, a combined score equal to keyword_weight times its
keyword score, and one of the surviving backend's chunks. -/
theorem claim_C4_degraded_retrieval_witness :
    ∃ rs, hybridSearch ⟨7/10, 3/10⟩ 5 (.error .timeout)
        (.ok [(⟨"a", "d", "ta", 3⟩, 2), (⟨"b", "d", "tb", 5⟩, 4)]) = .ok rs ∧
      ∀ c ∈ rs, c.semantic_score = 0 ∧
        c.combined_score = (⟨7/10, 3/10⟩ : Retriever).keyword_weight * c.keyword_score ∧
        c.chunk ∈ ([(⟨"a", "d", "ta", 3⟩, 2), (⟨"b", "d", "tb", 5⟩, 4)] : RawResult).map Prod.fst :=
  (claim_C4_degraded_retrieval ⟨7/10, 3/10⟩ 5).1 .timeout
    [(⟨"a", "d", "ta", 3⟩, 2), (⟨"b", "d", "tb", 5⟩, 4)]

/-- C5: with both backends succeeding, Search deduplicates by chunk id (the
returned ids are distinct), every returned chunk's combined score is
semantic_weight times its normalized semantic score plus keyword_weight
times its normalized keyword score, a chunk absent from one backend's
result set scores 0 on that dimension, and the configured defaults are
semantic 0.7 and keyword 0.3. -/
theorem claim_C5_score_blending (R : Retriever) (k : Nat) (sem kw : RawResult) :
    ∃ rs, hybridSearch R k (.ok sem) (.ok kw) = .ok rs ∧
      (rs.map (fun c => c.chunk.id)).Nodup ∧
      (∀ c ∈ rs,
        c.combined_score = R.semantic_weight * c.semantic_score +
          R.keyword_weight * c.keyword_score ∧
        (¬ c.chunk.id ∈ idsOf sem → c.semantic_score = 0) ∧
        (¬ c.chunk.id ∈ idsOf kw → c.keyword_score = 0)) ∧
      SEMANTIC_WEIGHT = 7/10 ∧ BM25_WEIGHT = 3/10 := by
  refine ⟨_, rfl, ?_, ?_, by norm_num [SEMANTIC_WEIGHT], by norm_num [BM25_WEIGHT]⟩
  · exact nodup_ids_rank_take _ k
      (blend_props R (normalizeScores sem) (normalizeScores kw)).2
  · intro c hc
    have hcm : c ∈ blend R (normalizeScores sem) (normalizeScores kw) :=
      mem_of_mem_rank_take hc
    obtain ⟨hcomb, hs, hk, _⟩ :=
      (blend_props R (normalizeScores sem) (normalizeScores kw)).1 c hcm
    refine ⟨hcomb, ?_, ?_⟩
    · intro h
      exact hs (by rwa [idsOf_normalizeScores])
    · intro h
      exact hk (by rwa [idsOf_normalizeScores])

/-- C5 witness: concrete two-backend inputs with one shared chunk id. -/
theorem claim_C5_score_blending_witness :
    ∃ rs, hybridSearch ⟨7/10, 3/10⟩ 5
        (.ok [(⟨"a", "d", "ta", 3⟩, 1), (⟨"b", "d", "tb", 5⟩, 3)])
        (.ok [(⟨"b", "d", "tb", 5⟩, 2), (⟨"c", "d", "tc", 4⟩, 6)]) = .ok rs ∧
      (rs.map (fun c => c.chunk.id)).Nodup ∧
      (∀ c ∈ rs,
        c.combined_score = (⟨7/10, 3/10⟩ : Retriever).semantic_weight * c.semantic_score +
          (⟨7/10, 3/10⟩ : Retriever).keyword_weight * c.keyword_score ∧
        (¬ c.chunk.id ∈ idsOf [(⟨"a", "d", "ta", 3⟩, 1), (⟨"b", "d", "tb", 5⟩, 3)] →
          c.semantic_score = 0) ∧
        (¬ c.chunk.id ∈ idsOf [(⟨"b", "d", "tb", 5⟩, 2), (⟨"c", "d", "tc", 4⟩, 6)] →
          c.keyword_score = 0)) ∧
      SEMANTIC_WEIGHT = 7/10 ∧ BM25_WEIGHT = 3/10 :=
  claim_C5_score_blending ⟨7/10, 3/10⟩ 5
    [(⟨"a", "d", "ta", 3⟩, 1), (⟨"b", "d", "tb", 5⟩, 3)]
    [(⟨"b", "d", "tb", 5⟩, 2), (⟨"c", "d", "tc", 4⟩, 6)]

/-- Inserting a chunk into a list puts it, among the chunks of the same
combined score, first: the equal-score fiber of the result is the chunk
followed by the fiber of the old list. -/
theorem filter_orderedInsert_comb (x : ScoredChunk) (q : ℚ) :
    ∀ l : List ScoredChunk,
      (List.orderedInsert combGE x l).filter (fun c => c.combined_score = q) =
        if x.combined_score = q then
          x :: l.filter (fun c => c.combined_score = q)
        else l.filter (fun c => c.combined_score = q) := by
  intro l
  induction l with
  | nil =>
    by_cases hq : x.combined_score = q <;> simp [List.orderedInsert, hq]
  | cons b l ih =>
    by_cases hr : combGE x b
    · rw [List.orderedInsert, if_pos hr]
      by_cases hq : x.combined_score = q <;> simp [List.filter_cons, hq]
    · rw [List.orderedInsert, if_neg hr]
      have hlt : x.combined_score < b.combined_score := not_le.mp hr
      by_cases hq : x.combined_score = q
      · have hbq : ¬ b.combined_score = q := by
          rw [← hq]
          exact ne_of_gt hlt
        simp [List.filter_cons, hq, hbq, ih]
      · simp [List.filter_cons, hq, ih]

/-- Stability of the ranking sort: for every combined score, the fiber of
equal-scored chunks is exactly the input's fiber, in the input's order. -/
theorem filter_rankChunks (q : ℚ) :
    ∀ l : List ScoredChunk,
      (rankChunks l).filter (fun c => c.combined_score = q) =
        l.filter (fun c => c.combined_score = q) := by
  intro l
  induction l with
  | nil => rfl
  | cons x l ih =>
    unfold rankChunks at ih
    show (List.orderedInsert combGE x (List.insertionSort combGE l)).filter _ = _
    rw [filter_orderedInsert_comb]
    by_cases hq : x.combined_score = q
    · simp [List.filter_cons, hq, ih]
    · simp [List.filter_cons, hq, ih]

/-- C7: for every pair of raw score sets, the result of Search is sorted by
non-increasing combined score, and chunks of equal combined score keep
their original relative order: each equal-score fiber of the result is a
sublist of the corresponding fiber of the blended input. -/
theorem claim_C7_sorted_stable (R : Retriever) (k : Nat) (sem kw : RawResult) :
    ∃ rs, hybridSearch R k (.ok sem) (.ok kw) = .ok rs ∧
      List.Pairwise combGE rs ∧
      (∀ q : ℚ, List.Sublist
        (rs.filter (fun c => c.combined_score = q))
        ((blend R (normalizeScores sem) (normalizeScores kw)).filter
          (fun c => c.combined_score = q))) := by
  refine ⟨_, rfl, ?_, ?_⟩
  · exact List.Pairwise.sublist (List.take_sublist k _)
      (List.sorted_insertionSort combGE _)
  · intro q
    have heq := filter_rankChunks q
      (blend R (normalizeScores sem) (normalizeScores kw))
    have hsub : List.Sublist
        (((rankChunks (blend R (normalizeScores sem)
            (normalizeScores kw))).take k).filter
          (fun c => c.combined_score = q))
        ((rankChunks (blend R (normalizeScores sem)
            (normalizeScores kw))).filter
          (fun c => c.combined_score = q)) :=
      (List.take_sublist k _).filter _
    rwa [heq] at hsub

/-- C7 witness: concrete inputs with a tie in combined scores. -/
theorem claim_C7_sorted_stable_witness :
    ∃ rs, hybridSearch ⟨7/10, 3/10⟩ 5
        (.ok [(⟨"a", "d", "ta", 3⟩, 1), (⟨"b", "d", "tb", 5⟩, 1)])
        (.ok [(⟨"c", "d", "tc", 4⟩, 2)]) = .ok rs ∧
      List.Pairwise combGE rs ∧
      (∀ q : ℚ, List.Sublist
        (rs.filter (fun c => c.combined_score = q))
        ((blend ⟨7/10, 3/10⟩
          (normalizeScores [(⟨"a", "d", "ta", 3⟩, 1), (⟨"b", "d", "tb", 5⟩, 1)])
          (normalizeScores [(⟨"c", "d", "tc", 4⟩, 2)])).filter
            (fun c => c.combined_score = q))) :=
  claim_C7_sorted_stable ⟨7/10, 3/10⟩ 5
    [(⟨"a", "d", "ta", 3⟩, 1), (⟨"b", "d", "tb", 5⟩, 1)]
    [(⟨"c", "d", "tc", 4⟩, 2)]

/-- C10 amended witness: a paginated body returns its results array, and a
bare-array body comes back unchanged as an array. -/
theorem claim_C10_list_branches_witness :
    Frontend.documentsList (.obj [("results", .arr [.num 1])]) = .arr [.num 1] ∧
    (Frontend.documentsList (.arr [.num 2])).isArray = true :=
  ⟨(claim_C10_list_branches (.obj [("results", .arr [.num 1])])).1 rfl,
   (claim_C10_list_branches (.arr [.num 2])).2.1 (by decide)⟩

end Knight
